import Mathlib

/-!
Verification development for the deployment orchestration core of a
stack-provisioning toolkit (deploy / rollback / import state machines,
asset manifest building, publisher caching, and the account access-key
cache).  Each operation is shallowly embedded as an executable Lean
function translated from the corresponding TypeScript source; theorems
at the end of the file settle the specification claims C1 through C10.
-/

/- ------------------------------------------------------------------ -/
/- Account access-key cache (aws-auth/account-cache.ts)               -/
/- ------------------------------------------------------------------ -/

/-- An account record: account id plus partition
(`Account` in `aws-auth/sdk-provider`). -/
structure Account where
  accountId : String
  partition : String
deriving DecidableEq, Repr

/-- Maximum number of entries in the disk cache, after which the cache
is reset (`AccountAccessKeyCache.MAX_ENTRIES`). -/
def MAX_ENTRIES : Nat := 1000

/-- JavaScript object assignment `map[k] = a` on a string-keyed object,
modelled on an insertion-ordered association list: an existing key keeps
its position and receives the new value, a new key is appended. -/
def assignKey (map : List (String × Account)) (k : String) (a : Account) :
    List (String × Account) :=
  if map.any (fun p => p.1 = k) then
    map.map (fun p => if p.1 = k then (k, a) else p)
  else
    map ++ [(k, a)]

/-- `AccountAccessKeyCache.put`: load the map, reset it to empty when it
already holds at least `MAX_ENTRIES` entries, insert the new mapping,
and save the result.  The loaded map is the argument and the saved map
is the return value. -/
def put (map : List (String × Account)) (k : String) (a : Account) :
    List (String × Account) :=
  let map := if map.length ≥ MAX_ENTRIES then [] else map
  assignKey map k a

/- ------------------------------------------------------------------ -/
/- File asset preparation (deployments/assets.ts, prepareFileAsset)   -/
/- ------------------------------------------------------------------ -/

/-- File asset packaging kind (`cxschema.FileAssetPackaging`). -/
inductive FileAssetPackaging where
  | zipDirectory
  | file
deriving DecidableEq, Repr

/-- Last index at which a character occurs in a list, if any. -/
def lastIdxOf (c : Char) : List Char → Option Nat
  | [] => none
  | x :: xs =>
    match lastIdxOf c xs with
    | some i => some (i + 1)
    | none => if x = c then some 0 else none

/-- The final path segment of a path: the characters after the last
slash (the whole path when it has no slash). -/
def lastSegment (cs : List Char) : List Char :=
  cs.foldl (fun acc c => if c = '/' then [] else acc ++ [c]) []

/-- Node `path.extname`: the portion of the last path segment from its
last dot to the end; empty when the segment has no dot, when its only
dot is the leading character, or when the segment is `..`. -/
def extname (p : String) : String :=
  let base := lastSegment p.toList
  if base = ['.', '.'] then "" else
  match lastIdxOf '.' base with
  | none => ""
  | some 0 => ""
  | some i => String.mk (base.drop i)

/-- Metadata of a file asset as consumed by `prepareFileAsset`:
identifier, content hash and source path. -/
structure FileAssetMeta where
  id : String
  sourceHash : String
  path : String
deriving DecidableEq, Repr

/-- Destination recorded in the asset manifest for a file asset. -/
structure FileAssetDestination where
  bucketName : String
  objectKey : String
deriving DecidableEq, Repr

/-- `prepareFileAsset` (destination part): compute the extension from
the packaging kind, the base name `<sourceHash><ext>`, the key
directory (collapsed when the id equals the source hash), and record
the bucket/key destination in the manifest. -/
def prepareFileAsset (asset : FileAssetMeta) (bucketName : String)
    (packaging : FileAssetPackaging) : FileAssetDestination :=
  let extension :=
    if packaging = FileAssetPackaging.zipDirectory then ".zip" else extname asset.path
  let baseName := asset.sourceHash ++ extension
  let keyDir :=
    if asset.id = asset.sourceHash then "assets/" else "assets/" ++ asset.id ++ "/"
  let key := keyDir ++ baseName
  { bucketName := bucketName, objectKey := key }

/-- The destination object key exactly as the specification words it:
`assets/<sourceHash><ext>` when the id equals the source hash and
`assets/<id>/<sourceHash><ext>` otherwise, with `<ext>` being `.zip`
for directory packaging and the original file extension otherwise. -/
def specFileAssetKey (asset : FileAssetMeta) (packaging : FileAssetPackaging) : String :=
  let ext :=
    if packaging = FileAssetPackaging.zipDirectory then ".zip" else extname asset.path
  if asset.id = asset.sourceHash then
    "assets/" ++ asset.sourceHash ++ ext
  else
    "assets/" ++ asset.id ++ "/" ++ asset.sourceHash ++ ext

/- ------------------------------------------------------------------ -/
/- Rollback state machine (deployments.ts, rollbackStack)             -/
/- ------------------------------------------------------------------ -/

/-- The rollback action implied by a stack status
(`RollbackChoice` from `stack-events`). -/
inductive RollbackChoice where
  | none
  | startRollback
  | continueUpdateRollback
  | rollbackFailed
deriving DecidableEq, Repr

/-- The observable fields of a looked-up stack that the rollback loop
consults: the derived rollback choice and whether the status is a
rollback success status. -/
structure StackObs where
  choice : RollbackChoice
  isRollbackSuccess : Bool
deriving DecidableEq, Repr

/-- What one iteration of the rollback loop observes from the remote
service: the freshly looked-up stack, the stack state after the
stabilization wait (`none` when `stabilizeStack` fails or the stack
disappears, in which case the looked-up state remains current), the
error texts aggregated by the activity monitor, and the logical ids of
top-level failed resources extracted by the event poller. -/
structure RollbackIterObs where
  lookup : StackObs
  stabilized : Option StackObs
  monitorErrors : List String
  polledOrphans : List String
deriving Repr

/-- Options of `rollbackStack` relevant to the loop. -/
structure RollbackOptions where
  orphanFailedResources : Bool
  orphanLogicalIds : Option (List String)
deriving Repr

/-- Outcome of a `rollbackStack` invocation.  The three `err…`
constructors are thrown `ToolkitError`s: `errCombine` is the
validation error `Cannot combine --force with --orphan`, `errTerminal`
the terminal error suggesting `--orphan`/`--force`, and `errNoProgress`
the distinct error thrown when the iteration budget is exhausted
(`Rollback did not finish after a large number of iterations; …`). -/
inductive RollbackOutcome where
  | notInRollbackableState
  | success
  | errCombine
  | errTerminal
  | errNoProgress
deriving DecidableEq, Repr

/-- Result of running the rollback model: the outcome together with the
number of physical state-changing calls issued (`rollbackStack` and
`continueUpdateRollback` API calls). -/
structure RollbackRun where
  outcome : RollbackOutcome
  mutCalls : Nat
deriving DecidableEq, Repr

/-- What one pass of the `while (maxLoops--)` body decides: return from
the function with an outcome (recording whether this pass issued a
mutating call first), or fall through to the next iteration — which in
the source happens only after a mutating call — carrying the current
value of the `resourcesToSkip` variable. -/
inductive IterDecision where
  | ret (out : RollbackOutcome) (mutated : Bool)
  | loopAgain (newSkip : List String)
deriving DecidableEq, Repr

/-- One pass of the `while (maxLoops--)` body of `rollbackStack`,
acting on the observations `o` of this iteration and the current
`resourcesToSkip` value: switch on the looked-up rollback choice
(NONE and ROLLBACK_FAILED return immediately; START_ROLLBACK issues
the `rollbackStack` API call; CONTINUE_UPDATE_ROLLBACK re-polls the
skip list under automatic orphaning and issues the
`continueUpdateRollback` API call), then run the stabilization wait
under the activity monitor and decide between returning success,
looping again (only on the continue-rollback path with automatic
orphaning) and throwing the terminal error. -/
def rollbackIter (orphan : Bool) (o : RollbackIterObs) (skip : List String) : IterDecision :=
  match o.lookup.choice with
  | RollbackChoice.none =>
    IterDecision.ret RollbackOutcome.notInRollbackableState false
  | RollbackChoice.rollbackFailed =>
    IterDecision.ret RollbackOutcome.notInRollbackableState false
  | choice =>
    let skip :=
      if choice = RollbackChoice.continueUpdateRollback ∧ orphan then
        o.polledOrphans
      else skip
    -- Stabilization wait: when `stabilizeStack` throws or the stack has
    -- disappeared, `finalStackState` stays the looked-up stack and an
    -- error message is recorded; otherwise the monitor errors decide it.
    let finalStackState := o.stabilized.getD o.lookup
    let stackErrorMessage :=
      match o.stabilized with
      | some _ =>
        if o.monitorErrors = [] then none
        else some (String.intercalate ", " o.monitorErrors)
      | Option.none => some "stabilization failure"
    if finalStackState.isRollbackSuccess ∨ stackErrorMessage = none then
      IterDecision.ret RollbackOutcome.success true
    else if finalStackState.choice = RollbackChoice.continueUpdateRollback ∧ orphan then
      IterDecision.loopAgain skip
    else
      IterDecision.ret RollbackOutcome.errTerminal true

/-- The `while (maxLoops--)` loop of `rollbackStack`: run the body with
the observations of iteration `i`, either returning (adding one
mutating call when the pass mutated) or recursing with one unit of
fuel spent and the mutating call of the pass counted; exhausted fuel
throws the no-progress error. -/
def rollbackLoop (orphan : Bool) (obs : Nat → RollbackIterObs) :
    Nat → Nat → List String → Nat → RollbackRun
  | 0, _, _, calls => { outcome := RollbackOutcome.errNoProgress, mutCalls := calls }
  | fuel + 1, i, skip, calls =>
    match rollbackIter orphan (obs i) skip with
    | IterDecision.ret out mutated =>
      { outcome := out, mutCalls := calls + (if mutated then 1 else 0) }
    | IterDecision.loopAgain newSkip =>
      rollbackLoop orphan obs fuel (i + 1) newSkip (calls + 1)

/-- `rollbackStack`: validate that `--force` (automatic orphaning) is
not combined with caller-supplied orphan logical ids, then run the
bounded rollback loop with `maxLoops = 10`. -/
def rollbackStack (opts : RollbackOptions) (obs : Nat → RollbackIterObs) : RollbackRun :=
  let resourcesToSkip := opts.orphanLogicalIds.getD []
  if opts.orphanFailedResources ∧ resourcesToSkip.length > 0 then
    { outcome := RollbackOutcome.errCombine, mutCalls := 0 }
  else
    rollbackLoop opts.orphanFailedResources obs 10 0 resourcesToSkip 0

/- ------------------------------------------------------------------ -/
/- Parameter resolution (cfn-api TemplateParameters/ParameterValues)  -/
/- ------------------------------------------------------------------ -/

/-- Modelled from the spec: the declaration of one template parameter
as far as parameter resolution is concerned.  The implementation
(`TemplateParameters` / `ParameterValues` in `deployments/cfn-api`) is
exercised only through its tests here; the model follows the
specification sections 4.1 and 8: an optional template default, whether
the parameter is sourced from a remote parameter store (an SSM-typed
parameter), and whether its description carries the special
no-invalidate marker. -/
structure ParamSpec where
  default : Option String
  isSsm : Bool
  noInvalidate : Bool
deriving DecidableEq, Repr

/-- One parameter of the outgoing API parameter list: either a supplied
value (`ParameterValue`) or a `UsePreviousValue` directive. -/
inductive ApiParam where
  | value (key : String) (v : String)
  | usePreviousValue (key : String)
deriving DecidableEq, Repr

/-- Modelled from the spec: resolution of a single template-declared
parameter from an optional override and an optional previous value.
Returns the contribution to the outgoing API parameter list (`none`
when the parameter is omitted so the service applies the default) and
whether the parameter counts as changed; fails with a `missing a
value` error naming the parameter when no source is available.
Remote-parameter-store semantics follow section 8 and the repository
test suite: without the no-invalidate marker such a parameter always
counts as changed; with the marker it counts as changed exactly when a
value is supplied that differs from the previous value. -/
def resolveParameter (name : String) (p : ParamSpec)
    (override previous : Option String) :
    Except String (Option ApiParam × Bool) :=
  match override with
  | some v =>
    let changed :=
      if p.isSsm ∧ p.noInvalidate then decide (some v ≠ previous) else true
    Except.ok (some (ApiParam.value name v), changed)
  | none =>
    match previous with
    | some _ =>
      let changed := if p.isSsm ∧ ¬p.noInvalidate then true else false
      Except.ok (some (ApiParam.usePreviousValue name), changed)
    | none =>
      match p.default with
      | some _ => Except.ok (none, true)
      | none => Except.error ("The following CloudFormation Parameters are missing a value: " ++ name)

/- ------------------------------------------------------------------ -/
/- Resource import discovery (ResourceImporter)                       -/
/- ------------------------------------------------------------------ -/

/-- A resource definition in a template, restricted to the fields
that import discovery consults: the construct-tree path metadata
(`aws:cdk:path`) and an optional deletion policy. -/
structure ResourceDef where
  cdkPath : Option String
  deletionPolicy : Option String
deriving DecidableEq, Repr

/-- The desired template, as a logical-id keyed association list of
resource definitions. -/
def TemplateRes : Type := List (String × ResourceDef)

/-- Template lookup of a resource definition by logical id
(`template?.Resources?.[logicalId]`). -/
def lookupRes (tmpl : TemplateRes) (logicalId : String) : Option ResourceDef :=
  (tmpl.find? (fun pr => pr.1 = logicalId)).map Prod.snd

/-- One resource-level entry of the full template diff: its logical id
and whether the difference is an addition (`ResourceDifference.isAddition`). -/
structure ResourceChange where
  logicalId : String
  isAddn : Bool
deriving DecidableEq, Repr

/-- `describeResource`: the construct-tree path of a resource from the
desired template metadata, falling back to the logical id. -/
def describeResource (tmpl : TemplateRes) (logicalId : String) : String :=
  ((lookupRes tmpl logicalId).bind (fun r => r.cdkPath)).getD logicalId

/-- `addDefaultDeletionPolicy`: insert `DeletionPolicy: Retain` when
the resource definition has none. -/
def addDefaultDeletionPolicy (r : ResourceDef) : ResourceDef :=
  match r.deletionPolicy with
  | some _ => r
  | none => { r with deletionPolicy := some "Retain" }

/-- A resource the import discovery offers as an import candidate:
logical id plus its (deletion-policy defaulted) definition. -/
structure ImportCandidate where
  logicalId : String
  resourceDefinition : ResourceDef
deriving DecidableEq, Repr

/-- `DiscoverImportableResourcesResult`, together with the warning
lines emitted through the io host on the way. -/
structure DiscoverResult where
  additions : List ImportCandidate
  hasNonAdditions : Bool
  warnings : List String
deriving DecidableEq, Repr

/-- `discoverImportableResources`: filter the `CDKMetadata`
pseudo-resource out of the resource-level diff, split the remaining
changes into additions and non-additions, fail on non-additions unless
the caller allows them (in which case a warning naming the offending
resources is emitted), and return every addition as an import
candidate. -/
def discoverImportableResources (tmpl : TemplateRes)
    (changes : List ResourceChange) (allowNonAdditions : Bool) :
    Except String DiscoverResult :=
  let resourceChanges := changes.filter (fun c => c.logicalId ≠ "CDKMetadata")
  let nonAdditions := resourceChanges.filter (fun c => ¬c.isAddn)
  let additions := resourceChanges.filter (fun c => c.isAddn)
  let offendingResources := nonAdditions.map (fun c => describeResource tmpl c.logicalId)
  if nonAdditions.length ≠ 0 ∧ ¬allowNonAdditions then
    Except.error
      ("No resource updates or deletes are allowed on import operation. Make sure to resolve pending changes " ++
        "to existing resources, before attempting an import. Updated/deleted resources: " ++
        String.intercalate ", " offendingResources ++ " (--force to override)")
  else
    Except.ok
      { additions := additions.map (fun c =>
          { logicalId := c.logicalId
            resourceDefinition := addDefaultDeletionPolicy ((lookupRes tmpl c.logicalId).getD { cdkPath := none, deletionPolicy := none }) })
        hasNonAdditions := nonAdditions.length ≠ 0
        warnings :=
          if nonAdditions.length ≠ 0 then
            ["Ignoring updated/deleted resources (--force): " ++ String.intercalate ", " offendingResources]
          else [] }

/- ------------------------------------------------------------------ -/
/- Publisher cache (deployments.ts, cachedPublisher)                  -/
/- ------------------------------------------------------------------ -/

/-- An asset manifest as a publisher-cache key.  The cache is a
JavaScript `Map` keyed by object reference, so the key is the manifest
object identity (`ident`); the structural content (`entriesHash`)
plays no role in cache lookup, and two distinct objects with equal
content are distinct keys. -/
structure AssetManifest where
  ident : Nat
  entriesHash : String
deriving DecidableEq, Repr

/-- The coordinator-held publisher cache: reference-keyed entries
mapping a manifest to its publisher (publishers are identified by
allocation number) plus the allocator for the next fresh publisher
(`new AssetPublishing(...)` always yields an object distinct from all
existing ones). -/
structure PublisherCacheState where
  cache : List (AssetManifest × Nat)
  nextId : Nat
deriving Repr

/-- First-match association-list lookup, as `Map.prototype.get`. -/
def lookupPub : List (AssetManifest × Nat) → AssetManifest → Option Nat
  | [], _ => none
  | (k, v) :: rest, m => if k = m then some v else lookupPub rest m

/-- `cachedPublisher`: return the cached publisher for the manifest if
present, otherwise create a fresh publisher, store it under the
manifest and return it. -/
def cachedPublisher (m : AssetManifest) (s : PublisherCacheState) :
    Nat × PublisherCacheState :=
  match lookupPub s.cache m with
  | some existing => (existing, s)
  | none =>
    (s.nextId, { cache := (m, s.nextId) :: s.cache, nextId := s.nextId + 1 })

/-- A sequence of build/publish/existence-check calls on one
coordinator, each hitting `cachedPublisher` with the manifest it
references; returns the publisher obtained by each call and the final
cache state. -/
def runPubCalls : List AssetManifest → PublisherCacheState →
    List Nat × PublisherCacheState
  | [], s => ([], s)
  | m :: ms, s =>
    let r := cachedPublisher m s
    let rest := runPubCalls ms r.2
    (r.1 :: rest.1, rest.2)

/-- The publisher cache of a freshly constructed coordinator. -/
def initPubCache : PublisherCacheState := { cache := [], nextId := 0 }

/- ------------------------------------------------------------------ -/
/- Deploy option normalization (deployments.ts, deployStack)          -/
/- ------------------------------------------------------------------ -/

/-- The deployment method selector (`DeploymentMethod` from
`actions/deploy`), restricted to the alternatives the legacy-option
translation can produce or pass through. -/
inductive DeploymentMethod where
  | changeSet (changeSetName : Option String) (execute : Option Bool)
  | direct
  | hotswap
deriving DecidableEq, Repr

/-- The `deployStack` options involved in legacy-option translation. -/
structure DeployMethodOptions where
  changeSetName : Option String
  execute : Option Bool
  deploymentMethod : Option DeploymentMethod
deriving Repr

/-- JavaScript truthiness of an optional string: `undefined` and the
empty string are falsy. -/
def truthyStr : Option String → Bool
  | none => false
  | some s => s ≠ ""

/-- The legacy-option prefix of `deployStack`: when `changeSetName` is
truthy or `execute` is defined, reject a simultaneously supplied
`deploymentMethod` (the thrown message is `You cannot supply both
deploymentMethod and changeSetName/execute. Supply one or the other.`)
and otherwise translate the legacy options into a change-set
deployment method carrying them. -/
def resolveDeploymentMethod (o : DeployMethodOptions) :
    Except String (Option DeploymentMethod) :=
  if truthyStr o.changeSetName ∨ o.execute ≠ none then
    if o.deploymentMethod ≠ none then
      Except.error "You cannot supply both deploymentMethod and changeSetName/execute. Supply one or the other."
    else
      Except.ok (some (DeploymentMethod.changeSet o.changeSetName o.execute))
  else
    Except.ok o.deploymentMethod

/-- `deployStack` up to its first environment access: resolve the
deployment method; a validation failure is thrown before
`accessStackForMutableStackOperations`, so the environment-access
count is `0` on the error path and `1` once the deploy proceeds. -/
def deployStackModel (o : DeployMethodOptions) :
    Except String (Option DeploymentMethod) × Nat :=
  match resolveDeploymentMethod o with
  | Except.error e => (Except.error e, 0)
  | Except.ok dm => (Except.ok dm, 1)

/- ------------------------------------------------------------------ -/
/- Theorems                                                           -/
/- ------------------------------------------------------------------ -/

/-- Claim C10: the account access-key cache never grows beyond
`MAX_ENTRIES` (1000): every `put` persists a map of at most
`MAX_ENTRIES` entries, and when the loaded map already holds at least
`MAX_ENTRIES` entries it is reset to empty before the new entry is
inserted, so exactly the new entry is persisted. -/
theorem accountCache_put_bounded (map : List (String × Account)) (k : String) (a : Account) :
    (put map k a).length ≤ MAX_ENTRIES ∧
      (map.length ≥ MAX_ENTRIES → put map k a = [(k, a)]) := by
  constructor
  · by_cases h : map.length ≥ MAX_ENTRIES
    · simp [put, assignKey, h]
      simp [MAX_ENTRIES]
    · unfold put
      rw [if_neg h]
      unfold assignKey
      by_cases hk : map.any (fun p => p.1 = k)
      · rw [if_pos hk]
        simpa using Nat.le_of_lt (Nat.lt_of_not_le h)
      · rw [if_neg hk]
        simp
        omega
  · intro h
    simp [put, assignKey, h]

/-- Witness for C10 at a concrete 1000-entry map. -/
theorem accountCache_put_bounded_witness :
    (put (List.replicate 1000 ("x", Account.mk "1" "aws")) "k" (Account.mk "2" "aws")).length ≤ MAX_ENTRIES ∧
      put (List.replicate 1000 ("x", Account.mk "1" "aws")) "k" (Account.mk "2" "aws") =
        [("k", Account.mk "2" "aws")] :=
  ⟨(accountCache_put_bounded (List.replicate 1000 ("x", Account.mk "1" "aws")) "k" (Account.mk "2" "aws")).1,
    (accountCache_put_bounded (List.replicate 1000 ("x", Account.mk "1" "aws")) "k" (Account.mk "2" "aws")).2
      (by rw [List.length_replicate, MAX_ENTRIES])⟩

/-- Claim C6: the destination object key formed by the manifest
builder for a file asset equals `assets/<sourceHash><ext>` when the
asset id equals its source hash and `assets/<id>/<sourceHash><ext>`
otherwise, where `<ext>` is `.zip` for directory (zip) packaging and
the original file extension of the asset path otherwise. -/
theorem asset_key_formation (asset : FileAssetMeta) (bucketName : String)
    (packaging : FileAssetPackaging) :
    (asset.id = asset.sourceHash →
      (prepareFileAsset asset bucketName packaging).objectKey =
        "assets/" ++ asset.sourceHash ++
          (if packaging = FileAssetPackaging.zipDirectory then ".zip" else extname asset.path)) ∧
    (asset.id ≠ asset.sourceHash →
      (prepareFileAsset asset bucketName packaging).objectKey =
        "assets/" ++ asset.id ++ "/" ++ asset.sourceHash ++
          (if packaging = FileAssetPackaging.zipDirectory then ".zip" else extname asset.path)) := by
  constructor
  · intro h
    simp [prepareFileAsset, h, String.append_assoc]
  · intro h
    simp [prepareFileAsset, h, String.append_assoc]

/-- Witness for C6: one asset whose id equals its hash with file
packaging, one distinct-id asset with zip-directory packaging. -/
theorem asset_key_formation_witness :
    (prepareFileAsset (FileAssetMeta.mk "abc" "abc" "dir/f.json") "bkt" FileAssetPackaging.file).objectKey =
        "assets/abc.json" ∧
      (prepareFileAsset (FileAssetMeta.mk "id1" "abc" "dir/f") "bkt" FileAssetPackaging.zipDirectory).objectKey =
        "assets/id1/abc.zip" := by
  constructor
  · have h := (asset_key_formation (FileAssetMeta.mk "abc" "abc" "dir/f.json") "bkt" FileAssetPackaging.file).1 (by decide)
    exact h.trans (by decide)
  · have h := (asset_key_formation (FileAssetMeta.mk "id1" "abc" "dir/f") "bkt" FileAssetPackaging.zipDirectory).2 (by decide)
    exact h.trans (by decide)

/-- A loop pass never decides to throw the no-progress error: that
error is reserved for fuel exhaustion. -/
theorem rollbackIter_not_noProgress (orphan : Bool) (o : RollbackIterObs) (skip : List String)
    (mutated : Bool) :
    rollbackIter orphan o skip ≠ IterDecision.ret RollbackOutcome.errNoProgress mutated := by
  unfold rollbackIter
  cases o.lookup.choice <;> simp only [] <;> (repeat' split) <;> simp

/-- If one loop pass returns, the whole loop returns that outcome with
at most one additional mutating call. -/
theorem rollbackLoop_ret (orphan : Bool) (obs : Nat → RollbackIterObs)
    (fuel i : Nat) (skip : List String) (calls : Nat)
    (out : RollbackOutcome) (mutated : Bool)
    (h : rollbackIter orphan (obs i) skip = IterDecision.ret out mutated) :
    rollbackLoop orphan obs (fuel + 1) i skip calls =
      { outcome := out, mutCalls := calls + (if mutated then 1 else 0) } := by
  simp [rollbackLoop, h]

/-- Fuel bound of the rollback loop: at most one mutating call per
unit of fuel is added to the running count, and the no-progress error
appears exactly when every unit of fuel was spent on a mutating
iteration. -/
theorem rollbackLoop_bound (orphan : Bool) (obs : Nat → RollbackIterObs) :
    ∀ (fuel i : Nat) (skip : List String) (calls : Nat),
      (rollbackLoop orphan obs fuel i skip calls).mutCalls ≤ calls + fuel ∧
        ((rollbackLoop orphan obs fuel i skip calls).outcome = RollbackOutcome.errNoProgress →
          (rollbackLoop orphan obs fuel i skip calls).mutCalls = calls + fuel)
  | 0, i, skip, calls => by simp [rollbackLoop]
  | fuel + 1, i, skip, calls => by
    cases h : rollbackIter orphan (obs i) skip with
    | ret out mutated =>
      rw [rollbackLoop_ret orphan obs fuel i skip calls out mutated h]
      refine ⟨?_, ?_⟩
      · simp only []
        split <;> omega
      · intro hout
        simp only [] at hout
        subst hout
        exact absurd h (rollbackIter_not_noProgress orphan (obs i) skip mutated)
    | loopAgain newSkip =>
      have hstep : rollbackLoop orphan obs (fuel + 1) i skip calls =
          rollbackLoop orphan obs fuel (i + 1) newSkip (calls + 1) := by
        simp [rollbackLoop, h]
      rw [hstep]
      have ih := rollbackLoop_bound orphan obs fuel (i + 1) newSkip (calls + 1)
      refine ⟨by omega, fun hout => by have := ih.2 hout; omega⟩

/-- Claim C2: for every input to `rollbackStack` and every sequence of
observed stack statuses, the rollback loop performs at most 10
physical state-changing calls, and if the iteration budget is
exhausted (which requires all 10 iterations to have issued a mutating
call) the operation ends in the distinct no-progress error rather
than any silent return. -/
theorem rollback_loop_bounded (opts : RollbackOptions) (obs : Nat → RollbackIterObs) :
    (rollbackStack opts obs).mutCalls ≤ 10 ∧
      ((rollbackStack opts obs).outcome = RollbackOutcome.errNoProgress →
        (rollbackStack opts obs).mutCalls = 10) := by
  unfold rollbackStack
  by_cases h : (opts.orphanFailedResources : Prop) ∧ (opts.orphanLogicalIds.getD []).length > 0
  · simp only [h, if_pos, and_true]
    refine ⟨by simp, by intro hh; simp at hh⟩
  · simp only [h, if_neg, not_false_iff]
    have hb := rollbackLoop_bound opts.orphanFailedResources obs 10 0 (opts.orphanLogicalIds.getD []) 0
    simpa using hb

/-- Observation script of a stack that never needs a rollback. -/
def obsAlreadyFine : Nat → RollbackIterObs :=
  fun _ => { lookup := { choice := RollbackChoice.none, isRollbackSuccess := false }
             stabilized := none, monitorErrors := [], polledOrphans := [] }

/-- Observation script of a stack that is stuck: every lookup demands
`CONTINUE_UPDATE_ROLLBACK`, every stabilization ends with an error and
back in the same state. -/
def obsStuck : Nat → RollbackIterObs :=
  fun _ => { lookup := { choice := RollbackChoice.continueUpdateRollback, isRollbackSuccess := false }
             stabilized := some { choice := RollbackChoice.continueUpdateRollback, isRollbackSuccess := false }
             monitorErrors := ["resource error"], polledOrphans := ["Res1"] }

/-- Witness for C2: a stack stuck in continue-update-rollback under
automatic orphaning exhausts the budget with exactly 10 mutating
calls. -/
theorem rollback_loop_bounded_witness :
    (rollbackStack { orphanFailedResources := true, orphanLogicalIds := none } obsStuck).mutCalls ≤ 10 ∧
      (rollbackStack { orphanFailedResources := true, orphanLogicalIds := none } obsStuck).mutCalls = 10 :=
  ⟨(rollback_loop_bounded { orphanFailedResources := true, orphanLogicalIds := none } obsStuck).1,
    (rollback_loop_bounded { orphanFailedResources := true, orphanLogicalIds := none } obsStuck).2 (by decide)⟩

/-- Claim C3: when `rollbackStack` observes a stack whose rollback
choice is NONE or ROLLBACK_FAILED, it returns immediately with
`notInRollbackableState = true` and zero mutating calls. -/
theorem rollback_not_rollbackable (opts : RollbackOptions) (obs : Nat → RollbackIterObs)
    (hv : ¬(opts.orphanFailedResources ∧ (opts.orphanLogicalIds.getD []).length > 0))
    (h0 : (obs 0).lookup.choice = RollbackChoice.none ∨
      (obs 0).lookup.choice = RollbackChoice.rollbackFailed) :
    rollbackStack opts obs =
      { outcome := RollbackOutcome.notInRollbackableState, mutCalls := 0 } := by
  have hiter : rollbackIter opts.orphanFailedResources (obs 0) (opts.orphanLogicalIds.getD []) =
      IterDecision.ret RollbackOutcome.notInRollbackableState false := by
    unfold rollbackIter
    rcases h0 with h | h <;> rw [h]
  unfold rollbackStack
  rw [if_neg hv]
  have := rollbackLoop_ret opts.orphanFailedResources obs 9 0
    (opts.orphanLogicalIds.getD []) 0 RollbackOutcome.notInRollbackableState false hiter
  simpa using this

/-- Witness for C3: a rollback request against a stack that does not
need one. -/
theorem rollback_not_rollbackable_witness :
    rollbackStack { orphanFailedResources := false, orphanLogicalIds := none } obsAlreadyFine =
      { outcome := RollbackOutcome.notInRollbackableState, mutCalls := 0 } :=
  rollback_not_rollbackable { orphanFailedResources := false, orphanLogicalIds := none }
    obsAlreadyFine (by decide) (by decide)

/-- Claim C4: supplying both the automatic-orphaning flag and a
caller-supplied (non-empty) list of orphan logical ids makes
`rollbackStack` throw the `Cannot combine --force with --orphan`
validation error before any mutating remote call. -/
theorem rollback_combine_error (opts : RollbackOptions) (obs : Nat → RollbackIterObs)
    (ids : List String) (h1 : opts.orphanFailedResources = true)
    (h2 : opts.orphanLogicalIds = some ids) (h3 : ids ≠ []) :
    rollbackStack opts obs = { outcome := RollbackOutcome.errCombine, mutCalls := 0 } := by
  unfold rollbackStack
  rw [if_pos]
  exact ⟨h1, by simpa [h2] using List.length_pos.mpr h3⟩

/-- Witness for C4: `--force` combined with one orphan logical id. -/
theorem rollback_combine_error_witness :
    rollbackStack { orphanFailedResources := true, orphanLogicalIds := some ["Res1"] } obsStuck =
      { outcome := RollbackOutcome.errCombine, mutCalls := 0 } :=
  rollback_combine_error { orphanFailedResources := true, orphanLogicalIds := some ["Res1"] }
    obsStuck ["Res1"] rfl rfl (by decide)

/-- Counterexample to C1 as stated for every template-declared
parameter: an SSM-typed parameter without the no-invalidate marker
that has a previous value and no override is sent as
`UsePreviousValue` but still counts as changed (the repository test
`if a parameter is retrieved from SSM, the parameters always count as
changed` pins this), contradicting the claim that such a parameter
does not count as changed. -/
theorem param_table_ssm_counterexample :
    resolveParameter "Foo" { default := some "/Some/Key", isSsm := true, noInvalidate := false }
        none (some "/Some/Key") =
      Except.ok (some (ApiParam.usePreviousValue "Foo"), true) ∧
    resolveParameter "Foo" { default := some "/Some/Key", isSsm := true, noInvalidate := false }
        none (some "/Some/Key") ≠
      Except.ok (some (ApiParam.usePreviousValue "Foo"), false) := by
  refine ⟨rfl, ?_⟩
  simp [resolveParameter]

/-- Claim C1 (amended to parameters not sourced from a remote
parameter store): parameter resolution is a deterministic function of
(override present?, previous value present?, template default
present?): an override — the empty string included — is always sent
and counts as changed; with no override but a previous value,
`UsePreviousValue` is sent and it does not count as changed; with no
override and no previous value but a default, the parameter is omitted
from the outgoing parameter set yet counts as changed; with none of
the three, resolution fails with a `missing a value` error naming the
parameter. -/
theorem param_resolution_table (name v prev dv : String) (d : Option String)
    (previous : Option String) (m : Bool) :
    resolveParameter name { default := d, isSsm := false, noInvalidate := m } (some v) previous =
        Except.ok (some (ApiParam.value name v), true) ∧
      resolveParameter name { default := d, isSsm := false, noInvalidate := m } none (some prev) =
        Except.ok (some (ApiParam.usePreviousValue name), false) ∧
      resolveParameter name { default := some dv, isSsm := false, noInvalidate := m } none none =
        Except.ok (none, true) ∧
      resolveParameter name { default := none, isSsm := false, noInvalidate := m } none none =
        Except.error ("The following CloudFormation Parameters are missing a value: " ++ name) := by
  refine ⟨?_, ?_, ?_, ?_⟩ <;> simp [resolveParameter]

/-- Claim C8: a parameter sourced from a remote parameter store (SSM)
counts as changed whenever no value is supplied or any value is
supplied (in particular a different one); when it carries the special
no-invalidate marker it counts as changed exactly when the supplied
value differs from the previous value, and not at all when no value is
supplied. -/
theorem ssm_param_changed (name prev v : String) (d : Option String) :
    resolveParameter name { default := d, isSsm := true, noInvalidate := false } none (some prev) =
        Except.ok (some (ApiParam.usePreviousValue name), true) ∧
      resolveParameter name { default := d, isSsm := true, noInvalidate := false } (some v) (some prev) =
        Except.ok (some (ApiParam.value name v), true) ∧
      resolveParameter name { default := d, isSsm := true, noInvalidate := true } none (some prev) =
        Except.ok (some (ApiParam.usePreviousValue name), false) ∧
      resolveParameter name { default := d, isSsm := true, noInvalidate := true } (some v) (some prev) =
        Except.ok (some (ApiParam.value name v), decide (v ≠ prev)) := by
  refine ⟨?_, ?_, ?_, ?_⟩ <;> simp [resolveParameter]

/-- Claim C9: supplying `deploymentMethod` together with either legacy
option — a (non-empty, hence truthy) `changeSetName` or a defined
`execute` flag — makes `deployStack` throw the
`You cannot supply both deploymentMethod and changeSetName/execute`
error before any environment access or remote call; with only the
legacy options supplied they are translated into a change-set
deployment method carrying the given change-set name and execute
flag. -/
theorem deploy_method_legacy (o : DeployMethodOptions)
    (hleg : (∃ s, o.changeSetName = some s ∧ s ≠ "") ∨ o.execute ≠ none) :
    (o.deploymentMethod ≠ none →
      deployStackModel o =
        (Except.error "You cannot supply both deploymentMethod and changeSetName/execute. Supply one or the other.", 0)) ∧
    (o.deploymentMethod = none →
      deployStackModel o =
        (Except.ok (some (DeploymentMethod.changeSet o.changeSetName o.execute)), 1)) := by
  have htr : truthyStr o.changeSetName = true ∨ o.execute ≠ none := by
    rcases hleg with ⟨s, hs, hne⟩ | hex
    · left
      rw [hs]
      simpa [truthyStr] using hne
    · right
      exact hex
  have hcond : (truthyStr o.changeSetName ∨ o.execute ≠ none) := by
    rcases htr with h | h
    · exact Or.inl (by simp [h])
    · exact Or.inr h
  constructor
  · intro hdm
    unfold deployStackModel resolveDeploymentMethod
    rw [if_pos hcond, if_pos hdm]
  · intro hdm
    unfold deployStackModel resolveDeploymentMethod
    rw [if_pos hcond, if_neg (by simp [hdm])]

/-- Witness for C9: a change-set name plus a deployment method is
rejected without environment access; the same legacy options alone are
translated. -/
theorem deploy_method_legacy_witness :
    deployStackModel
        { changeSetName := some "my-set", execute := some false,
          deploymentMethod := some DeploymentMethod.direct } =
      (Except.error "You cannot supply both deploymentMethod and changeSetName/execute. Supply one or the other.", 0) ∧
    deployStackModel
        { changeSetName := some "my-set", execute := some false, deploymentMethod := none } =
      (Except.ok (some (DeploymentMethod.changeSet (some "my-set") (some false))), 1) :=
  ⟨(deploy_method_legacy
      { changeSetName := some "my-set", execute := some false,
        deploymentMethod := some DeploymentMethod.direct }
      (Or.inl ⟨"my-set", rfl, by decide⟩)).1 (by simp),
    (deploy_method_legacy
      { changeSetName := some "my-set", execute := some false, deploymentMethod := none }
      (Or.inl ⟨"my-set", rfl, by decide⟩)).2 rfl⟩

/-- Claim C5: `discoverImportableResources` classifies every
resource-level diff (the `CDKMetadata` pseudo-resource excluded): when
every such change is an addition the result lists all of them as
candidates for import with `hasNonAdditions = false` and no warning; when
a non-addition exists and non-additions are not allowed it throws;
when a non-addition exists and non-additions are allowed it proceeds,
emits one warning naming the offending resources, and returns
`hasNonAdditions = true`. -/
theorem discover_import_classification (tmpl : TemplateRes) (changes : List ResourceChange) :
    ((∀ c ∈ changes, c.logicalId ≠ "CDKMetadata" → c.isAddn = true) →
      ∀ allow, ∃ r, discoverImportableResources tmpl changes allow = Except.ok r ∧
        r.additions.map (fun a => a.logicalId) =
          (changes.filter (fun c => c.logicalId ≠ "CDKMetadata")).map (fun c => c.logicalId) ∧
        r.hasNonAdditions = false ∧ r.warnings = []) ∧
    ((∃ c ∈ changes, c.logicalId ≠ "CDKMetadata" ∧ c.isAddn = false) →
      ∃ e, discoverImportableResources tmpl changes false = Except.error e) ∧
    ((∃ c ∈ changes, c.logicalId ≠ "CDKMetadata" ∧ c.isAddn = false) →
      ∃ r, discoverImportableResources tmpl changes true = Except.ok r ∧
        r.hasNonAdditions = true ∧
        r.warnings = ["Ignoring updated/deleted resources (--force): " ++
          String.intercalate ", "
            (((changes.filter (fun c => c.logicalId ≠ "CDKMetadata")).filter
                (fun c => ¬c.isAddn)).map (fun c => describeResource tmpl c.logicalId))]) := by
  refine ⟨?_, ?_, ?_⟩
  · intro h allow
    have hno : ¬∃ x ∈ changes, x.isAddn = false ∧ ¬x.logicalId = "CDKMetadata" := by
      rintro ⟨x, hx, hfalse, hmeta⟩
      have := h x hx (by simpa using hmeta)
      rw [this] at hfalse
      cases hfalse
    have hfeq : List.filter (fun a => a.isAddn && !decide (a.logicalId = "CDKMetadata")) changes =
        List.filter (fun c => !decide (c.logicalId = "CDKMetadata")) changes := by
      apply List.filter_congr
      intro a ha
      by_cases hm : a.logicalId = "CDKMetadata"
      · simp [hm]
      · simp [hm, h a ha hm]
    have heq : discoverImportableResources tmpl changes allow = Except.ok
        { additions := (changes.filter (fun c => c.logicalId ≠ "CDKMetadata")).map (fun c =>
            { logicalId := c.logicalId,
              resourceDefinition := addDefaultDeletionPolicy
                ((lookupRes tmpl c.logicalId).getD { cdkPath := none, deletionPolicy := none }) }),
          hasNonAdditions := false, warnings := [] } := by
      simp [discoverImportableResources, hno, hfeq]
    refine ⟨_, heq, ?_, rfl, rfl⟩
    simp [List.map_map]
  · rintro ⟨c, hc, hmeta, hadd⟩
    have hex : ∃ x ∈ changes, x.isAddn = false ∧ ¬x.logicalId = "CDKMetadata" :=
      ⟨c, hc, hadd, by simpa using hmeta⟩
    refine ⟨"No resource updates or deletes are allowed on import operation. Make sure to resolve pending changes " ++
        "to existing resources, before attempting an import. Updated/deleted resources: " ++
        String.intercalate ", "
          (((changes.filter (fun c => c.logicalId ≠ "CDKMetadata")).filter
              (fun c => ¬c.isAddn)).map (fun c => describeResource tmpl c.logicalId)) ++
        " (--force to override)", ?_⟩
    simp [discoverImportableResources, hex]
  · rintro ⟨c, hc, hmeta, hadd⟩
    have hex : ∃ x ∈ changes, x.isAddn = false ∧ ¬x.logicalId = "CDKMetadata" :=
      ⟨c, hc, hadd, by simpa using hmeta⟩
    have heq : discoverImportableResources tmpl changes true = Except.ok
        { additions := ((changes.filter (fun c => c.logicalId ≠ "CDKMetadata")).filter
              (fun c => c.isAddn)).map (fun c =>
            { logicalId := c.logicalId,
              resourceDefinition := addDefaultDeletionPolicy
                ((lookupRes tmpl c.logicalId).getD { cdkPath := none, deletionPolicy := none }) }),
          hasNonAdditions := true,
          warnings := ["Ignoring updated/deleted resources (--force): " ++
            String.intercalate ", "
              (((changes.filter (fun c => c.logicalId ≠ "CDKMetadata")).filter
                  (fun c => ¬c.isAddn)).map (fun c => describeResource tmpl c.logicalId))] } := by
      simp [discoverImportableResources, hex]
    exact ⟨_, heq, rfl, rfl⟩

/-- Desired template used by the C5 witness. -/
def tmplW : TemplateRes :=
  [("Q1", { cdkPath := some "Stack/Q1", deletionPolicy := none }),
    ("Q2", { cdkPath := none, deletionPolicy := some "Delete" })]

/-- A diff with only additions (plus the ignored pseudo-resource). -/
def changesAllAdd : List ResourceChange :=
  [{ logicalId := "CDKMetadata", isAddn := false },
    { logicalId := "Q1", isAddn := true },
    { logicalId := "Q2", isAddn := true }]

/-- A diff containing a non-addition. -/
def changesMixed : List ResourceChange :=
  [{ logicalId := "Q1", isAddn := true },
    { logicalId := "Q2", isAddn := false }]

/-- Witness for C5 at concrete diffs exercising all three scenarios. -/
theorem discover_import_classification_witness :
    (∃ r, discoverImportableResources tmplW changesAllAdd false = Except.ok r ∧
        r.additions.map (fun a => a.logicalId) =
          (changesAllAdd.filter (fun c => c.logicalId ≠ "CDKMetadata")).map (fun c => c.logicalId) ∧
        r.hasNonAdditions = false ∧ r.warnings = []) ∧
      (∃ e, discoverImportableResources tmplW changesMixed false = Except.error e) ∧
      (∃ r, discoverImportableResources tmplW changesMixed true = Except.ok r ∧
        r.hasNonAdditions = true ∧
        r.warnings = ["Ignoring updated/deleted resources (--force): " ++
          String.intercalate ", "
            (((changesMixed.filter (fun c => c.logicalId ≠ "CDKMetadata")).filter
                (fun c => ¬c.isAddn)).map (fun c => describeResource tmplW c.logicalId))]) :=
  ⟨(discover_import_classification tmplW changesAllAdd).1 (by decide) false,
    (discover_import_classification tmplW changesMixed).2.1
      ⟨{ logicalId := "Q2", isAddn := false }, by decide, by decide, rfl⟩,
    (discover_import_classification tmplW changesMixed).2.2
      ⟨{ logicalId := "Q2", isAddn := false }, by decide, by decide, rfl⟩⟩

/-- Invariant of the publisher cache: every cached publisher was
allocated below the allocator counter, cached publishers are pairwise
distinct, and cached manifests are pairwise distinct. -/
def PubInv (s : PublisherCacheState) : Prop :=
  (∀ pr ∈ s.cache, pr.2 < s.nextId) ∧
    (s.cache.map Prod.snd).Nodup ∧ (s.cache.map Prod.fst).Nodup

/-- A successful cache lookup comes from a cache entry. -/
theorem lookupPub_mem : ∀ (c : List (AssetManifest × Nat)) (m : AssetManifest) (p : Nat),
    lookupPub c m = some p → (m, p) ∈ c
  | [], _, _, h => by cases h
  | (k, v) :: rest, m, p, h => by
    by_cases hk : k = m
    · subst hk
      simp [lookupPub] at h
      subst h
      exact List.mem_cons_self _ _
    · rw [lookupPub, if_neg hk] at h
      exact List.mem_cons_of_mem _ (lookupPub_mem rest m p h)

/-- A manifest among the cached keys has a successful lookup. -/
theorem lookupPub_ne_none_of_mem_keys : ∀ (c : List (AssetManifest × Nat)) (m : AssetManifest),
    m ∈ c.map Prod.fst → lookupPub c m ≠ none
  | [], _, h => by cases h
  | (k, v) :: rest, m, h => by
    unfold lookupPub
    by_cases hk : k = m
    · simp [hk]
    · rw [if_neg hk]
      refine lookupPub_ne_none_of_mem_keys rest m ?_
      have h' : m = k ∨ m ∈ rest.map Prod.fst := by
        rw [List.map_cons] at h
        exact List.mem_cons.mp h
      rcases h' with heq | hm
      · exact absurd heq.symm hk
      · exact hm

/-- `cachedPublisher` preserves the cache invariant. -/
theorem cachedPublisher_inv (m : AssetManifest) (s : PublisherCacheState)
    (hs : PubInv s) : PubInv (cachedPublisher m s).2 := by
  unfold cachedPublisher
  cases hl : lookupPub s.cache m with
  | some p => exact hs
  | none =>
    obtain ⟨hbound, hvals, hkeys⟩ := hs
    refine ⟨?_, ?_, ?_⟩
    · rintro ⟨mk, pk⟩ hmem
      rcases List.mem_cons.mp hmem with heq | hmem
      · cases heq
        exact Nat.lt_succ_self _
      · exact Nat.lt_succ_of_lt (hbound _ hmem)
    · refine List.nodup_cons.mpr ⟨?_, hvals⟩
      intro hcon
      obtain ⟨pr, hpr, hpr2⟩ := List.mem_map.mp hcon
      exact absurd (hpr2 ▸ hbound pr hpr) (Nat.lt_irrefl _)
    · refine List.nodup_cons.mpr ⟨?_, hkeys⟩
      intro hcon
      exact lookupPub_ne_none_of_mem_keys s.cache m hcon hl

/-- After `cachedPublisher`, the manifest maps to the returned
publisher. -/
theorem cachedPublisher_lookup_self (m : AssetManifest) (s : PublisherCacheState) :
    lookupPub (cachedPublisher m s).2.cache m = some (cachedPublisher m s).1 := by
  unfold cachedPublisher
  cases hl : lookupPub s.cache m with
  | some p => exact hl
  | none => simp [lookupPub]

/-- `cachedPublisher` never disturbs an existing cache entry. -/
theorem cachedPublisher_lookup_mono (m m' : AssetManifest) (s : PublisherCacheState)
    (p : Nat) (h : lookupPub s.cache m' = some p) :
    lookupPub (cachedPublisher m s).2.cache m' = some p := by
  unfold cachedPublisher
  cases hl : lookupPub s.cache m with
  | some q => exact h
  | none =>
    have hne : m ≠ m' := by
      intro he
      rw [he, h] at hl
      cases hl
    simp only [lookupPub, if_neg hne]
    exact h

/-- Running a call sequence preserves the cache invariant. -/
theorem runPubCalls_inv : ∀ (ms : List AssetManifest) (s : PublisherCacheState),
    PubInv s → PubInv (runPubCalls ms s).2
  | [], s, hs => hs
  | m :: ms, s, hs => by
    rw [runPubCalls]
    exact runPubCalls_inv ms (cachedPublisher m s).2 (cachedPublisher_inv m s hs)

/-- Running a call sequence never disturbs an existing cache entry. -/
theorem runPubCalls_lookup_mono : ∀ (ms : List AssetManifest) (s : PublisherCacheState)
    (m' : AssetManifest) (p : Nat), lookupPub s.cache m' = some p →
    lookupPub (runPubCalls ms s).2.cache m' = some p
  | [], _, _, _, h => h
  | m :: ms, s, m', p, h => by
    rw [runPubCalls]
    exact runPubCalls_lookup_mono ms (cachedPublisher m s).2 m' p
      (cachedPublisher_lookup_mono m m' s p h)

/-- Each call's publisher is recorded in the final cache under the
manifest the call referenced. -/
theorem runPubCalls_lookup_final : ∀ (ms : List AssetManifest) (s : PublisherCacheState)
    (i : Nat), i < ms.length →
    lookupPub (runPubCalls ms s).2.cache (ms.getD i { ident := 0, entriesHash := "" }) =
      some ((runPubCalls ms s).1.getD i 0)
  | [], _, i, hi => by cases hi
  | m :: ms, s, 0, _ => by
    rw [runPubCalls]
    simp only [List.getD_cons_zero]
    exact runPubCalls_lookup_mono ms (cachedPublisher m s).2 m (cachedPublisher m s).1
      (cachedPublisher_lookup_self m s)
  | m :: ms, s, i + 1, hi => by
    rw [runPubCalls]
    simp only [List.getD_cons_succ]
    exact runPubCalls_lookup_final ms (cachedPublisher m s).2 i (by simpa using hi)

/-- Claim C7: over every sequence of build/publish/existence-check
calls on one coordinator, two calls referencing the same manifest
object obtain the identical publisher instance, calls referencing
distinct (even structurally equal or different) manifest objects
obtain distinct publisher instances, and each call's cache entry
persists for the coordinator's lifetime. -/
theorem publisher_cache_identity (ms : List AssetManifest) (i j : Nat)
    (hi : i < ms.length) (hj : j < ms.length) :
    ((runPubCalls ms initPubCache).1.getD i 0 = (runPubCalls ms initPubCache).1.getD j 0 ↔
      ms.getD i { ident := 0, entriesHash := "" } = ms.getD j { ident := 0, entriesHash := "" }) ∧
    lookupPub (runPubCalls ms initPubCache).2.cache (ms.getD i { ident := 0, entriesHash := "" }) =
      some ((runPubCalls ms initPubCache).1.getD i 0) := by
  have hinv : PubInv (runPubCalls ms initPubCache).2 :=
    runPubCalls_inv ms initPubCache
      ⟨by simp [initPubCache], by simp [initPubCache], by simp [initPubCache]⟩
  have hLi := runPubCalls_lookup_final ms initPubCache i hi
  have hLj := runPubCalls_lookup_final ms initPubCache j hj
  refine ⟨⟨?_, ?_⟩, hLi⟩
  · intro hre
    have hmi := lookupPub_mem _ _ _ hLi
    have hmj := lookupPub_mem _ _ _ hLj
    have hpair := List.inj_on_of_nodup_map hinv.2.1 hmi hmj (by simpa using hre)
    exact congrArg Prod.fst hpair
  · intro hme
    rw [hme] at hLi
    rw [hLi] at hLj
    exact Option.some.inj hLj

/-- Manifest call sequence used by the C7 witness: the first and
third calls reference the same manifest object, the second a distinct
object with the same structural content, the fourth a structurally
different object. -/
def msW : List AssetManifest :=
  [{ ident := 0, entriesHash := "x" }, { ident := 1, entriesHash := "x" },
    { ident := 0, entriesHash := "x" }, { ident := 2, entriesHash := "y" }]

/-- Witness for C7 at the concrete call sequence `msW`. -/
theorem publisher_cache_identity_witness :
    ((runPubCalls msW initPubCache).1.getD 0 0 = (runPubCalls msW initPubCache).1.getD 2 0) ∧
      ((runPubCalls msW initPubCache).1.getD 0 0 = (runPubCalls msW initPubCache).1.getD 1 0 →
        False) :=
  ⟨(publisher_cache_identity msW 0 2 (by decide) (by decide)).1.mpr (by decide),
    fun h => absurd ((publisher_cache_identity msW 0 1 (by decide) (by decide)).1.mp h)
      (by decide)⟩
